import Mathlib

/-!
Shallow embedding of the graph-mapping service
(`graph_service/app/services/graph.py`, `classification.py`, `etherscan.py`,
`jobs.py`, `config.py`) and proofs about the claims of its specification.

Modelling conventions:
* Python floats are modelled as rationals (`ℚ`); transaction values are kept
  in base units (wei) as naturals and divided by `10^18` exactly where the
  source divides by `1e18`.
* Python dicts with insertion order (networkx node/edge attribute maps,
  `defaultdict`) are modelled as insertion-ordered association lists.
* Attributes that a networkx node/edge dict may lack are `Option` fields
  defaulting to `none`; `dict.get(k, d)` becomes `Option.getD`.
* The asynchronous calls are pure state transformers here: the engine
  suspends only at the transaction-source call, which is modelled as an
  explicit `fetch` function parameter returning success or failure.
-/

/-! ## Configuration constants (`config.py`, class `Settings`) -/

def min_transaction_value_eth : ℚ := 5 / 100

def min_percentage_small_hack : ℚ := 1

def min_percentage_medium_hack : ℚ := 1 / 2

def min_percentage_large_hack : ℚ := 1 / 10

def reuse_threshold : Nat := 3

def max_api_calls_per_incident : Nat := 25

def max_transactions_per_node : Nat := 5

def max_nodes_per_graph : Nat := 500

def max_depth_limit : Nat := 8

/-! ## Normalized transactions (`schemas.py`, `TransactionData`)

The source keeps `value` as a decimal string of wei; we keep the wei amount
as a natural number.  `priority_score` is attached dynamically by the filter
pipeline in the source (`tx.priority_score = priority_score`); here it is a
field defaulting to `0`, matching `getattr(tx, 'priority_score', 0)`. -/

structure TransactionData where
  block_number : Nat := 0
  timestamp : Option Nat := none
  from_address : String := ""
  to_address : String := ""
  value : Nat := 0
  gas : Nat := 0
  gas_used : Nat := 0
  gas_price : Nat := 0
  transaction_hash : String := ""
  priority_score : Nat := 0
  deriving Repr, DecidableEq

/-- Python's `str.lower()` as the source applies it to hex addresses
(ASCII case folding), written over the character list so that it reduces in
the kernel. -/
def strLower (s : String) : String := String.mk (s.data.map Char.toLower)

/-- `float(tx.value) / 1e18` — wei converted to native units. -/
def valueEth (tx : TransactionData) : ℚ := (tx.value : ℚ) / 10 ^ 18

/-! ## Filter pipeline (`graph.py`, `_apply_filtering_pipeline` and helpers) -/

/-- `_get_total_stolen_amount`: the source returns the hard-coded placeholder
`100.0` ETH instead of the per-incident stolen amount. -/
def _get_total_stolen_amount : ℚ := 100

/-- `_get_min_percentage_threshold(hack_value_eth)`. -/
def _get_min_percentage_threshold (hack_value_eth : ℚ) : ℚ :=
  if hack_value_eth > 100 then min_percentage_large_hack
  else if hack_value_eth > 10 then min_percentage_medium_hack
  else min_percentage_small_hack

/-- Python's `x == int(x)` (`int` truncates toward zero, so the test holds
exactly when `x` is an integer, i.e. has denominator 1). -/
def isWholeNumber (x : ℚ) : Bool := x.den == 1

/-- `_calculate_priority_score(tx, value_eth)`. -/
def _calculate_priority_score (tx : TransactionData) (value_eth : ℚ) : Nat :=
  let score : Nat := 0
  let score := score +
    (if value_eth > 10 then 50
     else if value_eth > 1 then 30
     else if value_eth > 1 / 10 then 20
     else 10)
  let score := score + (if isWholeNumber value_eth || isWholeNumber (value_eth * 1000) then 10 else 0)
  let score := score + (if tx.gas_price > 20000000000 then 15 else 0)
  min score 100

/-- PRIMARY FILTERS of `_apply_filtering_pipeline`: keep only outgoing
transactions, of value at least `min_transaction_value_eth`, whose percentage
of `hack_value` meets the size-scaled threshold (when `hack_value > 0`). -/
def primaryFilters (txs : List TransactionData) (current_address : String)
    (hack_value : ℚ) : List TransactionData :=
  txs.filter fun tx =>
    ((strLower tx.from_address) == (strLower current_address)) &&
    !(valueEth tx < min_transaction_value_eth) &&
    (if hack_value > 0 then
      !(valueEth tx / hack_value * 100 < _get_min_percentage_threshold hack_value)
     else true)

/-- SECONDARY FILTERS, per transaction: base score from
`_calculate_priority_score`, plus 20 when the destination has been seen at
least `reuse_threshold` times in the visit-count map. -/
def scoreTransaction (visitCount : String → Nat) (tx : TransactionData) : TransactionData :=
  let value_eth := valueEth tx
  let ps := _calculate_priority_score tx value_eth
  let ps := if visitCount (strLower tx.to_address) ≥ reuse_threshold then ps + 20 else ps
  { tx with priority_score := ps }

def secondaryFilters (txs : List TransactionData) (visitCount : String → Nat) :
    List TransactionData :=
  txs.map (scoreTransaction visitCount)

/-- Stable insertion of `x` in front of the first element of priority not
above its own; used right-to-left this realizes Python's stable
`sort(key=priority, reverse=True)`, which keeps the original order of
equal-priority entries. -/
def insertByPriorityDesc (x : TransactionData) : List TransactionData → List TransactionData
  | [] => [x]
  | y :: ys =>
    if x.priority_score ≥ y.priority_score then x :: y :: ys
    else y :: insertByPriorityDesc x ys

/-- TERTIARY FILTERS: stable sort by `priority_score` descending. -/
def sortByPriorityDesc (txs : List TransactionData) : List TransactionData :=
  txs.foldr insertByPriorityDesc []

/-- `_apply_filtering_pipeline` with the stolen-amount basis as an explicit
parameter (the source reads it from `_get_total_stolen_amount`; see
`apply_filtering_pipeline` below for the composition as written). -/
def filteringPipelineWithStolen (txs : List TransactionData) (current_address : String)
    (visitCount : String → Nat) (hack_value : ℚ) : List TransactionData :=
  sortByPriorityDesc (secondaryFilters (primaryFilters txs current_address hack_value) visitCount)

/-- `_apply_filtering_pipeline(transactions, current_address, depth)` exactly
as composed in the source: the percentage basis is the hard-coded value of
`_get_total_stolen_amount`. -/
def apply_filtering_pipeline (txs : List TransactionData) (current_address : String)
    (visitCount : String → Nat) : List TransactionData :=
  filteringPipelineWithStolen txs current_address visitCount _get_total_stolen_amount

/-! ## Address classifier (`classification.py`, class `AddressClassifier`) -/

/-- The static directory `self.known_addresses`: address (lowercase) to
(entity kind, confidence, friendly name). -/
def known_addresses : List (String × String × ℚ × String) :=
  [ ("0x3f5ce5fbfe3e9af3971dd833d26ba9b5c936f0be", ("CEX", 95, "Binance")),
    ("0xd551234ae421e3bcba99a0da6d736074f22192ff", ("CEX", 95, "Binance")),
    ("0x564286362092d8e7936f0549571a803b203aaced", ("CEX", 95, "Binance")),
    ("0x0681d8db095565fe8a346fa0277bffde9c0edbbf", ("CEX", 95, "Binance")),
    ("0x32be343b94f860124dc4fee278fdcbd38c102d88", ("CEX", 95, "Poloniex")),
    ("0xb794f5ea0ba39494ce839613fffba74279579268", ("CEX", 95, "Poloniex")),
    ("0x267be1c1d684f78cb4f6a176c4911b741e4ffdc0", ("CEX", 95, "Kraken")),
    ("0xfa52274dd61e1643d2205169732f29114bc240b3", ("CEX", 95, "Kraken")),
    ("0x1522900b6dafac587d499a862861c0869be6e428", ("CEX", 95, "KuCoin")),
    ("0x2b5634c42055806a59e9107ed44d43c426e58258", ("CEX", 95, "KuCoin")),
    ("0x7a250d5630b4cf539739df2c5dacb4c659f2488d", ("DEX", 90, "Uniswap V2 Router")),
    ("0xe592427a0aece92de3edee1f18e0157c05861564", ("DEX", 90, "Uniswap V3 Router")),
    ("0x68b3465833fb72a70ecdf485e0e4c7bd8665fc45", ("DEX", 90, "Uniswap Router")),
    ("0xd9e1ce17f2641f24ae83637ab66a2cca9c378b9f", ("DEX", 90, "SushiSwap Router")),
    ("0x1111111254fb6c44bac0bed2854e76f90643097d", ("DEX", 85, "1inch Router")),
    ("0x8ba1f109551bd432803012645hac136c0cd747ef", ("Mixer", 85, "Tornado Cash")),
    ("0x47ce0c6ed5b0ce3d3a51fdb1c52dc66a7c3c2936", ("Mixer", 85, "Tornado Cash")),
    ("0x3154cf16ccdb4c6d922629664174b904d80f2c35", ("Bridge", 80, "Base Bridge")),
    ("0xa0b86a33e6c68c93d8b48fc5b41bc1ee0ba9f41d", ("Bridge", 80, "Polygon Bridge")) ]

/-- Dictionary lookup `self.known_addresses.get(address_lower)`. -/
def lookupKnownAddress (address_lower : String) : Option (String × ℚ × String) :=
  (known_addresses.find? (fun e => e.1 == address_lower)).map (·.2)

/-- `self.address_patterns["high_frequency"]`. -/
def pattern_high_frequency : Nat := 100

/-- `self.address_patterns["consolidation"]`. -/
def pattern_consolidation : Nat := 3

/-- `_classify_by_heuristics(address, transaction_count, daily_tx_count)`. -/
def _classify_by_heuristics (transaction_count daily_tx_count : Nat) :
    String × ℚ × Option String :=
  if transaction_count > 10000 then
    if daily_tx_count > 500 then
      ("CEX", 40, some ("High volume: " ++ toString transaction_count ++ " total, "
        ++ toString daily_tx_count ++ "/day"))
    else
      ("potential_endpoint", 30, some ("High historical volume: " ++ toString transaction_count))
  else if transaction_count > 1000 then
    ("potential_endpoint", 25, some ("Moderate volume: " ++ toString transaction_count))
  else if transaction_count < 100 && daily_tx_count < 5 then
    ("potential_endpoint", 20, some "Low activity wallet")
  else
    ("Unknown", 0, none)

/-- `classify_address(address, transaction_count, daily_tx_count,
times_seen_in_graph)`: rules applied in order, first match wins. -/
def classify_address (address : String) (transaction_count daily_tx_count : Nat)
    (times_seen_in_graph : Nat) : String × ℚ × Option String :=
  let address_lower := (strLower address)
  match lookupKnownAddress address_lower with
  | some (entity_type, confidence, name) => (entity_type, confidence, some name)
  | none =>
    if daily_tx_count > pattern_high_frequency then
      ("high_frequency_service", 60, some ("High frequency: " ++ toString daily_tx_count ++ " tx/day"))
    else if times_seen_in_graph ≥ pattern_consolidation then
      ("consolidation_point", 70, some ("Seen " ++ toString times_seen_in_graph ++ " times in graph"))
    else
      _classify_by_heuristics transaction_count daily_tx_count

/-- `should_terminate_exploration(address, entity_type, confidence_score,
transaction_count, outgoing_tx_count, cumulative_value_percentage)`. The
`address` and `transaction_count` parameters are unused in the source body
and kept for the same signature. -/
def should_terminate_exploration (_address : String) (entity_type : String)
    (confidence_score : ℚ) (_transaction_count outgoing_tx_count : Nat)
    (cumulative_value_percentage : ℚ) : Bool × String :=
  if confidence_score > 70 && (["CEX", "DEX", "Mixer"].contains entity_type) then
    (true, "high_confidence_classification")
  else if outgoing_tx_count > 200 then
    (true, "high_transaction_volume")
  else if cumulative_value_percentage < 5 then
    (true, "insufficient_value_flow")
  else if entity_type == "high_frequency_service" then
    (true, "high_frequency_service_detected")
  else
    (false, "")

/-! ## The working graph (`nx.DiGraph` as used by `graph.py`)

`networkx.DiGraph` is a simple directed graph: node and edge attribute
dictionaries, insertion-ordered, with AT MOST ONE edge per ordered pair of
nodes — `add_edge(u, v, **attrs)` on an existing pair updates the stored
attributes.  `add_edge` also silently creates missing endpoint nodes with an
empty attribute dict. -/

structure NodeAttrs where
  depth_from_hack : Option Nat := none
  entity_type : Option String := none
  confidence_score : Option ℚ := none
  transaction_count : Option Nat := none
  classification_details : Option String := none
  termination_reason : Option String := none
  manual_exploration_ready : Option Bool := none
  consolidated_addresses : Option (List String) := none
  first_seen : Option Nat := none
  processed : Option Bool := none
  deriving Repr, DecidableEq

structure EdgeAttrs where
  transaction_hash : String := ""
  value_eth : ℚ := 0
  priority_score : Nat := 0
  block_number : Option Nat := none
  timestamp : Option Nat := none
  gas_used : Option Nat := none
  gas_price : Option Nat := none
  filter_reason : String := ""
  flow_percentage : Option ℚ := none
  importance : Option String := none
  deriving Repr, DecidableEq

structure WorkGraph where
  nodes : List (String × NodeAttrs) := []
  edges : List ((String × String) × EdgeAttrs) := []
  deriving Repr, DecidableEq

def hasNode (g : WorkGraph) (a : String) : Bool :=
  g.nodes.any (fun n => n.1 == a)

def getNodeAttrs (g : WorkGraph) (a : String) : NodeAttrs :=
  ((g.nodes.find? (fun n => n.1 == a)).map (·.2)).getD {}

/-- In-place update of a node's attribute dict (`self.graph.nodes[a].update`). -/
def updateNode (g : WorkGraph) (a : String) (f : NodeAttrs → NodeAttrs) : WorkGraph :=
  { g with nodes := g.nodes.map (fun n => if n.1 == a then (n.1, f n.2) else n) }

/-- `graph.add_node(a, **attrs)`: update the attributes if present, else
append a fresh entry. -/
def addNode (g : WorkGraph) (a : String) (attrs : NodeAttrs) : WorkGraph :=
  if hasNode g a then updateNode g a (fun _ => attrs)
  else { g with nodes := g.nodes ++ [(a, attrs)] }

def ensureNode (g : WorkGraph) (a : String) : WorkGraph :=
  if hasNode g a then g else { g with nodes := g.nodes ++ [(a, {})] }

def hasEdge (g : WorkGraph) (u v : String) : Bool :=
  g.edges.any (fun e => e.1 == (u, v))

def getEdgeAttrs (g : WorkGraph) (u v : String) : EdgeAttrs :=
  ((g.edges.find? (fun e => e.1 == (u, v))).map (·.2)).getD {}

/-- `graph.add_edge(u, v, **attrs)`: create missing endpoints, then either
overwrite the attributes of the existing `(u, v)` edge or append a new one. -/
def addEdge (g : WorkGraph) (u v : String) (attrs : EdgeAttrs) : WorkGraph :=
  let g := ensureNode (ensureNode g u) v
  if hasEdge g u v then
    { g with edges := g.edges.map (fun e => if e.1 == (u, v) then ((u, v), attrs) else e) }
  else
    { g with edges := g.edges ++ [((u, v), attrs)] }

def outDegree (g : WorkGraph) (a : String) : Nat :=
  (g.edges.filter (fun e => e.1.1 == a)).length

/-- `list(graph.predecessors(a))` in edge-insertion order. -/
def predecessors (g : WorkGraph) (a : String) : List String :=
  (g.edges.filter (fun e => e.1.2 == a)).map (fun e => e.1.1)

/-- `list(graph.successors(a))` in edge-insertion order. -/
def successors (g : WorkGraph) (a : String) : List String :=
  (g.edges.filter (fun e => e.1.1 == a)).map (fun e => e.1.2)

/-- `graph.remove_node(a)`: drop the node and every incident edge. -/
def removeNode (g : WorkGraph) (a : String) : WorkGraph :=
  { nodes := g.nodes.filter (fun n => !(n.1 == a)),
    edges := g.edges.filter (fun e => !(e.1.1 == a) && !(e.1.2 == a)) }

def numNodes (g : WorkGraph) : Nat := g.nodes.length

/-! ## Expansion engine (`graph.py`, class `GraphMappingService`)

The transaction source is an explicit `fetch` parameter: `fetch address
start_block` either succeeds with the raw (already normalized) transaction
list or fails like `EtherscanRateLimitError` / `EtherscanError`.  Wall-clock
facts (the timeout check, progress timestamps) have no state effect on the
engine fields modelled here and are omitted. -/

inductive FetchOutcome where
  | success (txs : List TransactionData)
  | rateLimited
  | upstreamError
  deriving Repr, DecidableEq

structure EngineState where
  graph : WorkGraph := {}
  api_calls_used : Nat := 0
  nodes_processed : Nat := 0
  edges_created : Nat := 0
  address_visit_count : List (String × Nat) := []
  processed_nodes : List String := []
  pending_nodes : List (String × Nat) := []
  deriving Repr, DecidableEq

/-- `self.address_visit_count.get(a, 0)` (`defaultdict(int)` read). -/
def visitGet (m : List (String × Nat)) (a : String) : Nat :=
  ((m.find? (fun p => p.1 == a)).map (·.2)).getD 0

/-- `self.address_visit_count[a] += 1`. -/
def visitIncr (m : List (String × Nat)) (a : String) : List (String × Nat) :=
  if m.any (fun p => p.1 == a) then
    m.map (fun p => if p.1 == a then (p.1, p.2 + 1) else p)
  else m ++ [(a, 1)]

/-- `_process_transaction(tx, from_address, depth)`. -/
def _process_transaction (st : EngineState) (tx : TransactionData)
    (from_address : String) (depth : Nat) : EngineState :=
  let to_address := (strLower tx.to_address)
  if hasNode st.graph to_address && (getNodeAttrs st.graph to_address).processed.getD false then
    st
  else
    let st :=
      if !(hasNode st.graph to_address) then
        let g := addNode st.graph to_address { depth_from_hack := some (depth + 1) }
        let pending :=
          if depth + 1 < max_depth_limit then st.pending_nodes ++ [(to_address, depth + 1)]
          else st.pending_nodes
        { st with graph := g, pending_nodes := pending }
      else st
    let g := addEdge st.graph from_address to_address
      { transaction_hash := tx.transaction_hash,
        value_eth := valueEth tx,
        priority_score := tx.priority_score,
        block_number := some tx.block_number,
        timestamp := tx.timestamp,
        gas_used := some tx.gas_used,
        gas_price := some tx.gas_price,
        filter_reason := "filtered_transaction" }
    { st with graph := g, edges_created := st.edges_created + 1 }

/-- `_check_termination_conditions(address, total_tx_count, filtered_tx_count)`:
classify the address (the source passes `daily_tx_count` as its default `0`),
update the node, and — since `should_terminate_exploration` is called with
`cumulative_value_percentage` left at its default `0.0` — possibly mark the
node terminated and purge it from the frontier. -/
def _check_termination_conditions (st : EngineState) (address : String)
    (total_tx_count filtered_tx_count : Nat) : EngineState :=
  let vcount := visitGet st.address_visit_count address
  let cls := classify_address address total_tx_count 0 vcount
  let entity_type := cls.1
  let confidence := cls.2.1
  let details := cls.2.2
  let g :=
    if hasNode st.graph address then
      updateNode st.graph address (fun a =>
        { a with entity_type := some entity_type,
                 confidence_score := some confidence,
                 transaction_count := some total_tx_count,
                 classification_details := details })
    else st.graph
  let verdict := should_terminate_exploration address entity_type confidence
    total_tx_count filtered_tx_count 0
  if verdict.1 then
    let g :=
      if hasNode g address then
        updateNode g address (fun a =>
          { a with termination_reason := some verdict.2,
                   manual_exploration_ready := some (decide (confidence < 80)) })
      else g
    { st with graph := g,
              pending_nodes := st.pending_nodes.filter (fun p => !(p.1 == address)) }
  else
    { st with graph := g }

/-- The `start_block` read by `_process_node`: the node's `first_seen`
attribute when the node exists, else 0. -/
def startBlockOf (st : EngineState) (address : String) : Nat :=
  if hasNode st.graph address then (getNodeAttrs st.graph address).first_seen.getD 0 else 0

/-- `_process_node(address, depth)`: bump the visit count, fetch the address's
transactions, and on success count the call, filter, process the top
`max_transactions_per_node`, and run the termination check; a
`RateLimited`/`Upstream` failure is caught after only the visit count
changed. -/
def _process_node (fetch : String → Nat → FetchOutcome) (st : EngineState)
    (address : String) (depth : Nat) : EngineState :=
  let st := { st with address_visit_count := visitIncr st.address_visit_count address }
  match fetch address (startBlockOf st address) with
  | .success transactions =>
    let st := { st with api_calls_used := st.api_calls_used + 1 }
    let filtered := apply_filtering_pipeline transactions address (visitGet st.address_visit_count)
    let st := (filtered.take max_transactions_per_node).foldl
      (fun s tx => _process_transaction s tx address depth) st
    _check_termination_conditions st address transactions.length filtered.length
  | .rateLimited => st
  | .upstreamError => st

/-- `_recursive_traversal`, with explicit fuel standing for the unbounded
`while`; each iteration re-checks the frontier and the numeric budgets
exactly as the loop condition does. -/
def _recursive_traversal (fetch : String → Nat → FetchOutcome) :
    Nat → EngineState → EngineState
  | 0, st => st
  | fuel + 1, st =>
    if st.api_calls_used < max_api_calls_per_incident &&
       numNodes st.graph < max_nodes_per_graph then
      match st.pending_nodes with
      | [] => st
      | (current_address, current_depth) :: rest =>
        let st := { st with pending_nodes := rest }
        if st.processed_nodes.contains current_address || current_depth ≥ max_depth_limit then
          _recursive_traversal fetch fuel st
        else
          let st := _process_node fetch st current_address current_depth
          let st := { st with
            processed_nodes := st.processed_nodes ++ [current_address],
            nodes_processed := st.nodes_processed + 1 }
          _recursive_traversal fetch fuel st
    else st

/-- `_initialize_graph`: victim node at depth 0, hacker node at depth 1, the
seed edge between them, and the hacker enqueued at depth 1.  The seed edge's
`value_eth` is stored exactly as carried by the incident record. -/
def initialize_graph (wallet_address to_address hack_tx_hash : String)
    (hack_value : ℚ) : EngineState :=
  let victim_address := (strLower wallet_address)
  let hacker_address := (strLower to_address)
  let g : WorkGraph := {}
  let g := addNode g victim_address
    { depth_from_hack := some 0, entity_type := some "victim_wallet",
      confidence_score := some 100 }
  let g := addNode g hacker_address
    { depth_from_hack := some 1, entity_type := some "hacker_wallet",
      confidence_score := some 95 }
  let g := addEdge g victim_address hacker_address
    { transaction_hash := hack_tx_hash, value_eth := hack_value,
      priority_score := 100, filter_reason := "initial_hack_transaction" }
  { graph := g, pending_nodes := [(hacker_address, 1)] }

/-! ## Graph post-processor (`graph.py`, `_optimize_graph` and phases) -/

/-- The prune test of `_remove_dead_ends`, on one node entry: zero out-degree,
falsy (`None` or empty) `termination_reason`, and `entity_type` outside
`{CEX, DEX, Mixer}` (a missing `entity_type` is outside). -/
def deadEndRemovable (g : WorkGraph) (n : String × NodeAttrs) : Bool :=
  outDegree g n.1 == 0 &&
  (n.2.termination_reason.getD "").isEmpty &&
  !(["CEX", "DEX", "Mixer"].contains (n.2.entity_type.getD ""))

/-- `_remove_dead_ends`: ONE scan of the unmodified graph collects
`nodes_to_remove`, then the collected nodes are removed. -/
def _remove_dead_ends (g : WorkGraph) : WorkGraph :=
  let nodes_to_remove := (g.nodes.filter (fun n => deadEndRemovable g n)).map (·.1)
  nodes_to_remove.foldl removeNode g

/-- The grouping key of `_consolidate_entities`: a truthy
`classification_details` that is not `"Unknown"`. -/
def entityKeyOf (a : NodeAttrs) : Option String :=
  match a.classification_details with
  | some k => if k == "" || k == "Unknown" then none else some k
  | none => none

def dedupAppend (acc : List String) (k : String) : List String :=
  if acc.contains k then acc else acc ++ [k]

/-- The keys of `entity_groups` in insertion order (`defaultdict` iteration). -/
def entityGroupKeys (g : WorkGraph) : List String :=
  (g.nodes.filterMap (fun n => entityKeyOf n.2)).foldl dedupAppend []

/-- The member addresses of one entity group, in node-insertion order. -/
def entityGroup (g : WorkGraph) (k : String) : List String :=
  (g.nodes.filter (fun n => entityKeyOf n.2 == some k)).map (·.1)

/-- `_consolidate_address_group(addresses, entity_name)`: first address is the
master; each other address has its incoming edges redirected to the master and
its outgoing edges redirected from the master (skipping would-be self-loops),
then is removed. -/
def _consolidate_address_group (g : WorkGraph) (addresses : List String) : WorkGraph :=
  match addresses with
  | [] => g
  | [_] => g
  | master_address :: other_addresses =>
    let g := updateNode g master_address (fun a =>
      { a with consolidated_addresses := some other_addresses,
               entity_type := some (a.entity_type.getD "Unknown") })
    other_addresses.foldl (fun g addr =>
      let g := (predecessors g addr).foldl (fun g pred =>
        if pred == master_address then g
        else addEdge g pred master_address (getEdgeAttrs g pred addr)) g
      let g := (successors g addr).foldl (fun g succ =>
        if succ == master_address then g
        else addEdge g master_address succ (getEdgeAttrs g addr succ)) g
      removeNode g addr) g

/-- `entity_groups` of `_consolidate_entities`, computed once from the
incoming graph. -/
def entityGroups (g : WorkGraph) : List (String × List String) :=
  (entityGroupKeys g).map (fun k => (k, entityGroup g k))

/-- `_consolidate_entities`: every group of size ≥ 2 is consolidated. -/
def _consolidate_entities (g : WorkGraph) : WorkGraph :=
  (entityGroups g).foldl
    (fun g' p => if p.2.length > 1 then _consolidate_address_group g' p.2 else g') g

/-- The per-edge annotation of `_analyze_flows`. -/
def annotateEdge (total_stolen : ℚ) (e : (String × String) × EdgeAttrs) :
    (String × String) × EdgeAttrs :=
  let value_eth := e.2.value_eth
  let flow_percentage := value_eth / total_stolen * 100
  (e.1, { e.2 with
    flow_percentage := some flow_percentage,
    importance := some (if flow_percentage > 10 then "critical"
      else if flow_percentage > 2 then "significant" else "minor") })

/-- `_analyze_flows`: annotate every edge with its flow percentage of the
stolen amount (which the source again reads from `_get_total_stolen_amount`). -/
def _analyze_flows (g : WorkGraph) : WorkGraph :=
  let total_stolen := _get_total_stolen_amount
  if total_stolen ≤ 0 then g
  else { g with edges := g.edges.map (annotateEdge total_stolen) }

/-- `_optimize_graph`: dead-end removal, then entity consolidation, then flow
analysis. -/
def _optimize_graph (g : WorkGraph) : WorkGraph :=
  _analyze_flows (_consolidate_entities (_remove_dead_ends g))

/-! ## Job controller (`jobs.py`, class `JobManager`)

Only the state that `start_job` consults and mutates is modelled: the
persisted per-incident graph status, the set of known incidents, and the
in-memory job/task tables.  The inter-job rate-floor sleep and the timestamps
are wall-clock effects with no bearing on the modelled fields. -/

inductive JobStatus where
  | pending
  | running
  | completed
  | jobError
  | jobTimeout
  deriving Repr, DecidableEq

structure JobState where
  graph_status : List (String × JobStatus) := []
  incidents : List String := []
  active_jobs : List String := []
  job_tasks : List String := []
  deriving Repr, DecidableEq

inductive StartOutcome where
  | conflict (error_code message existing_job_id : String)
  | rejected (error_code message : String)
  | accepted (job_id : String)
  deriving Repr, DecidableEq

/-- `self.graph_repo.get_graph_status(incident_id)` restricted to the status
field. -/
def lookupStatus (st : JobState) (incident_id : String) : Option JobStatus :=
  (st.graph_status.find? (fun p => p.1 == incident_id)).map (·.2)

/-- `create_incident_graph` (db.py): insert status `pending`, on conflict
reset to `pending`. -/
def setStatus (m : List (String × JobStatus)) (incident_id : String)
    (s : JobStatus) : List (String × JobStatus) :=
  if m.any (fun p => p.1 == incident_id) then
    m.map (fun p => if p.1 == incident_id then (p.1, s) else p)
  else m ++ [(incident_id, s)]

/-- The tail of `start_job` past the single-flight check: incident existence,
job record creation, task spawn. -/
def start_job_proceed (st : JobState) (incident_id : String) :
    StartOutcome × JobState :=
  if !(st.incidents.contains incident_id) then
    (.rejected "INCIDENT_NOT_FOUND" ("Incident with ID " ++ incident_id ++ " not found"), st)
  else
    let job_id := incident_id
    let st := { st with
      active_jobs := st.active_jobs ++ [job_id],
      graph_status := setStatus st.graph_status incident_id .pending,
      job_tasks := st.job_tasks ++ [job_id] }
    (.accepted job_id, st)

/-- `start_job(incident_id, options)`: the single-flight check comes first and
returns the conflict outcome without touching any state. -/
def start_job (st : JobState) (incident_id : String) : StartOutcome × JobState :=
  match lookupStatus st incident_id with
  | some s =>
    if s = .pending ∨ s = .running then
      (.conflict "ALREADY_PROCESSING"
        "Graph processing already in progress for this incident" incident_id, st)
    else start_job_proceed st incident_id
  | none => start_job_proceed st incident_id

/-! ## Concrete fixtures used by evaluation theorems -/

/-- The engine state right after `_initialize_graph` on a minimal incident:
victim `0xv`, hacker `0xh`, seed transaction `0xhack` of value 50. -/
def seedState : EngineState := initialize_graph "0xV" "0xH" "0xhack" 50

/-- Processing the hacker node when the transaction source fails rate-limited. -/
def failedFetchState : EngineState :=
  _process_node (fun _ _ => FetchOutcome.rateLimited) seedState "0xh" 1

/-- A three-node chain `0xv → 0xh → 0xx` in which neither `0xh` nor `0xx`
carries a termination reason (as after an aborted traversal). -/
def chainState : EngineState :=
  _process_transaction { seedState with pending_nodes := [] }
    { to_address := "0xx", value := 7000000000000000000, transaction_hash := "0xt4" } "0xh" 1

/-- A transaction source that always fails rate-limited. -/
def rateLimitedFetch : String → Nat → FetchOutcome := fun _ _ => FetchOutcome.rateLimited

/-- A transaction source that always succeeds with no transactions. -/
def emptySuccessFetch : String → Nat → FetchOutcome := fun _ _ => FetchOutcome.success []

/-- The scenario transactions of the specification's filter test: outgoing
values 0.10, 0.06 and 0.04 native units from node `0xa`. -/
def scenario_tx_010 : TransactionData :=
  { from_address := "0xa", to_address := "0xb1", value := 100000000000000000,
    transaction_hash := "0xt1" }

def scenario_tx_006 : TransactionData :=
  { from_address := "0xa", to_address := "0xb2", value := 60000000000000000,
    transaction_hash := "0xt2" }

def scenario_tx_004 : TransactionData :=
  { from_address := "0xa", to_address := "0xb3", value := 40000000000000000,
    transaction_hash := "0xt3" }

def scenario_txs : List TransactionData := [scenario_tx_010, scenario_tx_006, scenario_tx_004]

/-- The secondary-tier score as the specification words it: value-bucket
base plus the round-amount, gas and destination-reuse bonuses, summed and
then capped at 100 once. -/
def specPriorityScore (visitCount : String → Nat) (tx : TransactionData) : Nat :=
  let value_eth := valueEth tx
  let base : Nat :=
    if value_eth > 10 then 50 else if value_eth > 1 then 30
    else if value_eth > 1 / 10 then 20 else 10
  let roundBonus : Nat :=
    if isWholeNumber value_eth || isWholeNumber (value_eth * 1000) then 10 else 0
  let gasBonus : Nat := if tx.gas_price > 20000000000 then 15 else 0
  let reuseBonus : Nat :=
    if visitCount (strLower tx.to_address) ≥ reuse_threshold then 20 else 0
  min (base + roundBonus + gasBonus + reuseBonus) 100

/-- A job state with one incident whose prior job is persisted as running. -/
def runningJobState : JobState :=
  { graph_status := [("inc1", JobStatus.running)], incidents := ["inc1"],
    active_jobs := [], job_tasks := [] }

/-- A two-node graph whose leaf is a terminated, directory-confidence CEX:
post-processing is idempotent on it. -/
def cexGraph : WorkGraph :=
  { nodes := [("0xv", { depth_from_hack := some 0, entity_type := some "victim_wallet",
                        confidence_score := some 100 }),
              ("0xcex", { depth_from_hack := some 1, entity_type := some "CEX",
                          confidence_score := some 95,
                          termination_reason := some "high_confidence_classification" })],
    edges := [(("0xv", "0xcex"),
               { transaction_hash := "0xh1", value_eth := 50, priority_score := 100,
                 filter_reason := "initial_hack_transaction" })] }

/-! ## Claim theorems -/

/-- Claim C1.  The filter pipeline as composed in the source uses the
hard-coded `_get_total_stolen_amount = 100` as the percentage basis, so on an
incident whose stolen amount is 5 with outgoing transactions of 0.10, 0.06
and 0.04 native units the pipeline output is EMPTY (the medium-hack 0.5%
threshold drops 0.10 and 0.06, the minimum-value filter drops 0.04).  With
the incident's stolen amount 5 actually threaded through (the documented
intent of `_get_total_stolen_amount`), the output is exactly 0.10 then 0.06,
in that order. -/
theorem claim1_stolen_amount_basis :
    apply_filtering_pipeline scenario_txs "0xa" (fun _ => 0) = [] ∧
    (filteringPipelineWithStolen scenario_txs "0xa" (fun _ => 0) 5).map valueEth
      = [1 / 10, 6 / 100] ∧
    (filteringPipelineWithStolen scenario_txs "0xa" (fun _ => 0) 5).map
      TransactionData.transaction_hash = ["0xt1", "0xt2"] := by
  with_unfolding_all decide

/-- Claim C5, counterexample.  In the freshly initialized seed graph the
hacker node has out-degree zero and no termination reason, and a single run
of `_remove_dead_ends` removes it: the hacker seed is NOT protected from
pruning. -/
theorem claim5_counterexample :
    hasNode seedState.graph "0xh" = true ∧
    hasNode (_remove_dead_ends seedState.graph) "0xh" = false := by
  with_unfolding_all decide

/-- Claim C2, counterexample.  When the fetch for the hacker node fails
rate-limited, `api_calls_used` is not incremented at all (the claim says
exactly once) and the node receives no `termination_reason` (the claim says
`upstream_unavailable`). -/
theorem claim2_counterexample :
    failedFetchState.api_calls_used = 0 ∧
    ¬ failedFetchState.api_calls_used = 1 ∧
    (getNodeAttrs failedFetchState.graph "0xh").termination_reason = none := by
  with_unfolding_all decide

/-- Claim C6, counterexample.  On the chain `0xv → 0xh → 0xx` with `0xh` and
`0xx` unterminated, the first post-processing run prunes only `0xx` (dead-end
removal is a single pass), leaving `0xh` as a new dead end that the second
run prunes: running the post-processor twice differs from running it once. -/
theorem claim6_counterexample :
    ¬ _optimize_graph (_optimize_graph chainState.graph) = _optimize_graph chainState.graph := by
  with_unfolding_all decide

/-- Claim C7, counterexample.  Two selected transactions with the same
`(from, to)` endpoints but different hashes are stored as ONE edge whose
attributes (including the hash) are those of the second insertion — the
working `nx.DiGraph` keys edges on `(from, to)` only. -/
theorem claim7_counterexample :
    (addEdge (addEdge {} "0xa" "0xb" { transaction_hash := "0xt1", value_eth := 1 })
        "0xa" "0xb" { transaction_hash := "0xt2", value_eth := 2 }).edges.length = 1 ∧
    ¬ (addEdge (addEdge {} "0xa" "0xb" { transaction_hash := "0xt1", value_eth := 1 })
        "0xa" "0xb" { transaction_hash := "0xt2", value_eth := 2 }).edges.length = 2 ∧
    (addEdge (addEdge {} "0xa" "0xb" { transaction_hash := "0xt1", value_eth := 1 })
        "0xa" "0xb" { transaction_hash := "0xt2", value_eth := 2 }).edges.map
      (fun e => e.2.transaction_hash) = ["0xt2"] := by
  with_unfolding_all decide

/-- Claim C4.  Every transaction scored by the secondary tier ends with
`priority_score` in `[0, 100]`; although the source applies the `min _ 100`
cap before adding the +20 reuse bonus, the result coincides with the
sum-then-cap description (the capped part never exceeds 75, so the cap never
binds differently). -/
theorem claim4_priority_score_in_range (visitCount : String → Nat) (tx : TransactionData) :
    0 ≤ (scoreTransaction visitCount tx).priority_score ∧
    (scoreTransaction visitCount tx).priority_score ≤ 100 ∧
    (scoreTransaction visitCount tx).priority_score = specPriorityScore visitCount tx := by
  refine ⟨Nat.zero_le _, ?_, ?_⟩ <;>
    simp only [scoreTransaction, _calculate_priority_score, specPriorityScore] <;>
    repeat' split
  all_goals omega

/-- Claim C9.  If an address (lowercased, as the source does) is in the
known-address directory, `classify_address` returns exactly the directory's
entity kind, confidence and friendly name, for every value of the supplied
statistics: the directory lookup is the first rule and returns immediately. -/
theorem claim9_directory_precedence (address : String) (entity : String × ℚ × String)
    (tc dc ts : Nat)
    (h : lookupKnownAddress (strLower address) = some entity) :
    classify_address address tc dc ts = (entity.1, entity.2.1, some entity.2.2) := by
  obtain ⟨k, c, n⟩ := entity
  simp only [classify_address]
  rw [h]

/-- Witness for C9: the first Binance address of the directory, classified
with large statistics that would otherwise trigger every later rule. -/
theorem claim9_witness :
    lookupKnownAddress (strLower "0x3F5CE5FBFE3E9AF3971DD833D26BA9B5C936F0BE")
      = some ("CEX", 95, "Binance") ∧
    classify_address "0x3F5CE5FBFE3E9AF3971DD833D26BA9B5C936F0BE" 20000 600 9
      = ("CEX", 95, some "Binance") :=
  ⟨by with_unfolding_all decide,
   claim9_directory_precedence "0x3F5CE5FBFE3E9AF3971DD833D26BA9B5C936F0BE"
     ("CEX", 95, "Binance") 20000 600 9 (by with_unfolding_all decide)⟩

/-- Claim C10.  When the persisted status of the incident's prior job is
`pending` or `running`, `start_job` returns the conflict outcome with
error code `ALREADY_PROCESSING` naming the existing job (the incident id,
which doubles as the job id), and the state — including the task table — is
untouched: no new processing task is created. -/
theorem claim10_single_flight (st : JobState) (incident_id : String) (s : JobStatus)
    (h1 : lookupStatus st incident_id = some s)
    (h2 : s = JobStatus.pending ∨ s = JobStatus.running) :
    start_job st incident_id =
      (StartOutcome.conflict "ALREADY_PROCESSING"
        "Graph processing already in progress for this incident" incident_id, st) := by
  simp only [start_job]
  rw [h1]
  simp only [if_pos h2]

/-- Witness for C10: starting `inc1` again while its job is running yields
the conflict outcome and leaves the state unchanged. -/
theorem claim10_witness :
    lookupStatus runningJobState "inc1" = some JobStatus.running ∧
    (JobStatus.running = JobStatus.pending ∨ JobStatus.running = JobStatus.running) ∧
    start_job runningJobState "inc1" =
      (StartOutcome.conflict "ALREADY_PROCESSING"
        "Graph processing already in progress for this incident" "inc1", runningJobState) :=
  ⟨by decide, by decide,
   claim10_single_flight runningJobState "inc1" JobStatus.running (by decide) (by decide)⟩

/-! ### Helper lemmas about the engine's state transformers -/

theorem should_terminate_at_zero (a et : String) (c : ℚ) (tc oc : Nat) :
    (should_terminate_exploration a et c tc oc 0).1 = true ∧
    (should_terminate_exploration a et c tc oc 0).2 ≠ "" := by
  simp only [should_terminate_exploration]
  repeat' split
  any_goals (refine ⟨rfl, ?_⟩ ; decide)
  all_goals exact absurd (by norm_num : (0:ℚ) < 5) (by assumption)

theorem hasNode_updateNode (g : WorkGraph) (a : String) (f : NodeAttrs → NodeAttrs)
    (b : String) : hasNode (updateNode g a f) b = hasNode g b := by
  simp only [hasNode, updateNode]
  induction g.nodes with
  | nil => rfl
  | cons x xs ih =>
    simp only [List.map_cons, List.any_cons, ih]
    by_cases hx : (x.1 == a) = true <;> simp [hx]

theorem hasNode_addNode_mono (g : WorkGraph) (a : String) (attrs : NodeAttrs)
    (b : String) (h : hasNode g b = true) : hasNode (addNode g a attrs) b = true := by
  simp only [addNode]
  split
  · rw [hasNode_updateNode]; exact h
  · simp only [hasNode] at h ⊢
    simp [List.any_append, h]

theorem hasNode_ensureNode_mono (g : WorkGraph) (a b : String)
    (h : hasNode g b = true) : hasNode (ensureNode g a) b = true := by
  simp only [ensureNode]
  split
  · exact h
  · simp only [hasNode] at h ⊢
    simp [List.any_append, h]

theorem hasNode_addEdge_mono (g : WorkGraph) (u v : String) (e : EdgeAttrs)
    (b : String) (h : hasNode g b = true) : hasNode (addEdge g u v e) b = true := by
  simp only [addEdge]
  split <;>
    exact hasNode_ensureNode_mono _ _ _ (hasNode_ensureNode_mono _ _ _ h)

theorem hasNode_process_transaction_mono (st : EngineState) (tx : TransactionData)
    (a : String) (d : Nat) (b : String) (h : hasNode st.graph b = true) :
    hasNode (_process_transaction st tx a d).graph b = true := by
  simp only [_process_transaction]
  split
  · exact h
  · split
    · exact hasNode_addEdge_mono _ _ _ _ _ (hasNode_addNode_mono _ _ _ _ h)
    · exact hasNode_addEdge_mono _ _ _ _ _ h

theorem foldl_process_transaction_hasNode_mono (l : List TransactionData)
    (a : String) (d : Nat) (b : String) :
    ∀ st : EngineState, hasNode st.graph b = true →
      hasNode ((l.foldl (fun s tx => _process_transaction s tx a d) st)).graph b = true := by
  induction l with
  | nil => exact fun st h => h
  | cons x xs ih =>
    intro st h
    rw [List.foldl_cons]
    exact ih _ (hasNode_process_transaction_mono _ _ _ _ _ h)

theorem find_map_update (l : List (String × NodeAttrs)) (a : String)
    (f : NodeAttrs → NodeAttrs) :
    (l.map (fun n => if n.1 == a then (n.1, f n.2) else n)).find? (fun n => n.1 == a)
      = (l.find? (fun n => n.1 == a)).map (fun n => (n.1, f n.2)) := by
  have hPF : ((fun n : String × NodeAttrs => n.1 == a) ∘
      (fun n : String × NodeAttrs => if n.1 == a then (n.1, f n.2) else n))
      = (fun n : String × NodeAttrs => n.1 == a) := by
    funext n
    by_cases hn : (n.1 == a) = true
    · simp only [Function.comp_apply, if_pos hn]
    · simp only [Function.comp_apply, if_neg hn]
  rw [List.find?_map, hPF]
  cases hfind : l.find? (fun n => n.1 == a) with
  | none => rfl
  | some m =>
    have hm := List.find?_some hfind
    simp [hm]
    intro hcon
    exact absurd (by simpa using hm) hcon

theorem getNodeAttrs_updateNode_self (g : WorkGraph) (a : String)
    (f : NodeAttrs → NodeAttrs) (h : hasNode g a = true) :
    getNodeAttrs (updateNode g a f) a = f (getNodeAttrs g a) := by
  simp only [hasNode, List.any_eq_true] at h
  obtain ⟨n, hmem, hp⟩ := h
  have hs : (g.nodes.find? (fun n => n.1 == a)).isSome :=
    List.find?_isSome.mpr ⟨n, hmem, hp⟩
  obtain ⟨m, hm⟩ := Option.isSome_iff_exists.mp hs
  simp only [getNodeAttrs, updateNode, find_map_update, hm]
  simp

theorem filter_all_not_key (l : List (String × Nat)) (address : String) :
    ((l.filter (fun p => !(p.1 == address))).all (fun p => !(p.1 == address))) = true := by
  simp only [List.all_eq_true]
  intro x hx
  exact (List.mem_filter.mp hx).2

/-- After `_check_termination_conditions` on a node present in the graph, the
node carries a non-empty termination reason and the frontier holds no entry
for it. -/
theorem check_termination_marks (st : EngineState) (address : String) (t f : Nat)
    (h : hasNode st.graph address = true) :
    ∃ r, (getNodeAttrs (_check_termination_conditions st address t f).graph
        address).termination_reason = some r ∧ r ≠ "" ∧
      ((_check_termination_conditions st address t f).pending_nodes.all
        (fun p => !(p.1 == address))) = true := by
  simp only [_check_termination_conditions]
  obtain ⟨hterm, hne⟩ := should_terminate_at_zero address
    (classify_address address t 0 (visitGet st.address_visit_count address)).1
    (classify_address address t 0 (visitGet st.address_visit_count address)).2.1 t f
  refine ⟨(should_terminate_exploration address
    (classify_address address t 0 (visitGet st.address_visit_count address)).1
    (classify_address address t 0 (visitGet st.address_visit_count address)).2.1 t f 0).2,
    ?_, hne, ?_⟩
  · rw [if_pos h, if_pos hterm, if_pos (by rw [hasNode_updateNode]; exact h)]
    rw [getNodeAttrs_updateNode_self _ _ _ (by rw [hasNode_updateNode]; exact h)]
  · rw [if_pos h, if_pos hterm]
    exact filter_all_not_key _ _

/-- Claim C3.  `should_terminate_exploration` is always called by the engine
with `cumulative_value_percentage` at its default `0.0`, which satisfies the
below-5 rule, so it returns `true` with a non-empty reason for every input;
consequently every successfully fetched node present in the graph ends its
expansion with a non-empty `termination_reason` and no remaining frontier
entry. -/
theorem claim3_termination_always_fires (fetch : String → Nat → FetchOutcome)
    (st : EngineState) (address : String) (depth : Nat) (txs : List TransactionData)
    (hfetch : fetch address (startBlockOf st address) = FetchOutcome.success txs)
    (hnode : hasNode st.graph address = true) :
    (∀ a et c tc oc, (should_terminate_exploration a et c tc oc 0).1 = true) ∧
    ∃ r, (getNodeAttrs (_process_node fetch st address depth).graph
        address).termination_reason = some r ∧ r ≠ "" ∧
      ((_process_node fetch st address depth).pending_nodes.all
        (fun p => !(p.1 == address))) = true := by
  have hsb : startBlockOf
      { st with address_visit_count := visitIncr st.address_visit_count address } address
      = startBlockOf st address := rfl
  refine ⟨fun a et c tc oc => (should_terminate_at_zero a et c tc oc).1, ?_⟩
  simp only [_process_node, hsb, hfetch]
  exact check_termination_marks _ _ _ _
    (foldl_process_transaction_hasNode_mono _ _ _ _ _ hnode)

/-- Witness for C3: the hacker seed, expanded with an empty successful fetch,
ends up terminated (with reason `insufficient_value_flow`) and off the
frontier. -/
theorem claim3_witness :
    emptySuccessFetch "0xh" (startBlockOf seedState "0xh") = FetchOutcome.success [] ∧
    hasNode seedState.graph "0xh" = true ∧
    ((∀ a et c tc oc, (should_terminate_exploration a et c tc oc 0).1 = true) ∧
      ∃ r, (getNodeAttrs (_process_node emptySuccessFetch seedState "0xh" 1).graph
          "0xh").termination_reason = some r ∧ r ≠ "" ∧
        ((_process_node emptySuccessFetch seedState "0xh" 1).pending_nodes.all
          (fun p => !(p.1 == "0xh"))) = true) :=
  ⟨rfl, by with_unfolding_all decide,
   claim3_termination_always_fires emptySuccessFetch seedState "0xh" 1 [] rfl
     (by with_unfolding_all decide)⟩

/-- Claim C2, amended.  On a RateLimited or Upstream fetch failure the engine
leaves everything unchanged except the visit count: `api_calls_used` is not
incremented, the node is not marked (graph untouched), and the frontier is
untouched (no re-enqueue) — the exception is swallowed and traversal goes on. -/
theorem claim2_amended_failure_changes_only_visits (fetch : String → Nat → FetchOutcome)
    (st : EngineState) (address : String) (depth : Nat)
    (h : fetch address (startBlockOf st address) = FetchOutcome.rateLimited ∨
         fetch address (startBlockOf st address) = FetchOutcome.upstreamError) :
    _process_node fetch st address depth =
      { st with address_visit_count := visitIncr st.address_visit_count address } := by
  have hsb : startBlockOf
      { st with address_visit_count := visitIncr st.address_visit_count address } address
      = startBlockOf st address := rfl
  simp only [_process_node, hsb]
  rcases h with h | h <;> rw [h]

/-- Witness for C2: the rate-limited source on the seed state. -/
theorem claim2_witness :
    (rateLimitedFetch "0xh" (startBlockOf seedState "0xh") = FetchOutcome.rateLimited ∨
     rateLimitedFetch "0xh" (startBlockOf seedState "0xh") = FetchOutcome.upstreamError) ∧
    _process_node rateLimitedFetch seedState "0xh" 1 =
      { seedState with address_visit_count := visitIncr seedState.address_visit_count "0xh" } :=
  ⟨Or.inl rfl,
   claim2_amended_failure_changes_only_visits rateLimitedFetch seedState "0xh" 1 (Or.inl rfl)⟩

theorem process_transaction_api_unchanged (st : EngineState) (tx : TransactionData)
    (a : String) (d : Nat) :
    (_process_transaction st tx a d).api_calls_used = st.api_calls_used := by
  simp only [_process_transaction]
  repeat' split
  all_goals rfl

theorem foldl_process_transaction_api_unchanged (l : List TransactionData)
    (a : String) (d : Nat) :
    ∀ st : EngineState,
      (l.foldl (fun s tx => _process_transaction s tx a d) st).api_calls_used
        = st.api_calls_used := by
  induction l with
  | nil => intro st; rfl
  | cons x xs ih =>
    intro st
    rw [List.foldl_cons, ih, process_transaction_api_unchanged]

theorem check_termination_api_unchanged (st : EngineState) (a : String) (t f : Nat) :
    (_check_termination_conditions st a t f).api_calls_used = st.api_calls_used := by
  simp only [_check_termination_conditions]
  repeat' split
  all_goals rfl

/-- One node expansion performs at most one transaction-source call: it can
raise `api_calls_used` by at most 1. -/
theorem process_node_api_le_succ (fetch : String → Nat → FetchOutcome)
    (st : EngineState) (a : String) (d : Nat) :
    (_process_node fetch st a d).api_calls_used ≤ st.api_calls_used + 1 := by
  simp only [_process_node]
  split
  · rw [check_termination_api_unchanged, foldl_process_transaction_api_unchanged]
  · exact Nat.le_succ _
  · exact Nat.le_succ _

/-- Claim C8.  The traversal loop expands a node only while `api_calls_used`
is strictly below the budget, and one expansion adds at most one call, so
`api_calls_used ≤ max_api_calls_per_incident` is an invariant of the loop:
it holds of the state after any number of iterations whenever it holds
before, hence at every observable instant of a run started at 0. -/
theorem claim8_budget_respected (fetch : String → Nat → FetchOutcome)
    (fuel : Nat) (st : EngineState) (a : String) (d : Nat) :
    (st.api_calls_used ≤ max_api_calls_per_incident →
      (_recursive_traversal fetch fuel st).api_calls_used ≤ max_api_calls_per_incident) ∧
    (_process_node fetch st a d).api_calls_used ≤ st.api_calls_used + 1 := by
  refine ⟨?_, process_node_api_le_succ fetch st a d⟩
  induction fuel generalizing st with
  | zero => exact fun h => h
  | succ n ih =>
    intro h
    simp only [_recursive_traversal]
    split
    · next hcond =>
      simp only [Bool.and_eq_true, decide_eq_true_eq] at hcond
      rcases hp : st.pending_nodes with _ | ⟨⟨ca, cd⟩, rest⟩ <;> simp only [hp]
      · exact h
      · split
        · exact ih _ h
        · exact ih _ (le_trans
            (process_node_api_le_succ fetch { st with pending_nodes := rest } ca cd)
            hcond.1)
    · exact h

/-- Witness for C8: a three-iteration run from the seed state stays within
the 25-call budget, and a single expansion adds at most one call. -/
theorem claim8_witness :
    seedState.api_calls_used ≤ max_api_calls_per_incident ∧
    (_recursive_traversal emptySuccessFetch 3 seedState).api_calls_used
      ≤ max_api_calls_per_incident ∧
    (_process_node emptySuccessFetch seedState "0xh" 1).api_calls_used
      ≤ seedState.api_calls_used + 1 :=
  ⟨by decide,
   (claim8_budget_respected emptySuccessFetch 3 seedState "0xh" 1).1 (by decide),
   (claim8_budget_respected emptySuccessFetch 3 seedState "0xh" 1).2⟩

theorem foldl_removeNode_nodes (rs : List String) :
    ∀ g : WorkGraph, (rs.foldl removeNode g).nodes
      = g.nodes.filter (fun n => !(rs.contains n.1)) := by
  induction rs with
  | nil =>
    intro g
    simp [List.filter_eq_self]
  | cons r rs ih =>
    intro g
    rw [List.foldl_cons, ih]
    simp only [removeNode]
    rw [List.filter_filter]
    apply List.filter_congr
    intro x hx
    simp only [List.contains_cons, Bool.not_or]
    exact Bool.and_comm _ _

/-- Claim C5, amended.  A single `_remove_dead_ends` pass keeps a node if and
only if the graph had an entry for it that is not flagged by the prune test
(zero out-degree in the INPUT graph, falsy termination reason, entity kind
outside `{CEX, DEX, Mixer}`): the removal set is computed once against the
unmodified graph, with no iteration and no special protection of the seeds. -/
theorem claim5_single_pass_characterization (g : WorkGraph) (a : String) :
    hasNode (_remove_dead_ends g) a
      = (hasNode g a && !(g.nodes.any (fun n => n.1 == a && deadEndRemovable g n))) := by
  simp only [_remove_dead_ends, hasNode, foldl_removeNode_nodes]
  rw [Bool.eq_iff_iff]
  simp only [List.any_eq_true, List.mem_filter, Bool.and_eq_true, Bool.not_eq_true,
    List.any_filter, Bool.not_eq_true', List.contains_eq_any_beq, List.any_map,
    List.any_eq_false, Function.comp]
  constructor
  · rintro ⟨x, hxmem, hnc, hxa⟩
    refine ⟨⟨x, hxmem, hxa⟩, ?_⟩
    rintro y hymem ⟨hya, hyrem⟩
    have hym : y.1 ∈ List.map (fun x => x.1)
        (List.filter (fun n => deadEndRemovable g n) g.nodes) :=
      List.mem_map_of_mem _ (List.mem_filter.mpr ⟨hymem, hyrem⟩)
    have hfalse := hnc y.1 hym
    have hxa2 : x.1 = a := by simpa using hxa
    have hya2 : y.1 = a := by simpa using hya
    rw [hxa2, hya2] at hfalse
    simp at hfalse
  · rintro ⟨⟨x, hxmem, hxa⟩, hnone⟩
    refine ⟨x, hxmem, ?_, hxa⟩
    intro z hz
    obtain ⟨y, hymemfil, hyz⟩ := List.mem_map.mp hz
    obtain ⟨hymem, hyrem⟩ := List.mem_filter.mp hymemfil
    by_contra hcon
    simp only [Bool.not_eq_false] at hcon
    have hxz : x.1 = z := by simpa using hcon
    have hxa2 : x.1 = a := by simpa using hxa
    have hya : (y.1 == a) = true := by simp [hyz, hxz ▸ hxa2]
    exact hnone y hymem ⟨hya, hyrem⟩

theorem edges_ensureNode (g : WorkGraph) (a : String) :
    (ensureNode g a).edges = g.edges := by
  simp only [ensureNode]
  split <;> rfl

theorem hasNode_ensureNode_self (g : WorkGraph) (a : String) :
    hasNode (ensureNode g a) a = true := by
  simp only [ensureNode]
  split
  · assumption
  · simp [hasNode, List.any_append]

theorem ensureNode_of_hasNode (g : WorkGraph) (a : String) (h : hasNode g a = true) :
    ensureNode g a = g := by
  simp only [ensureNode, h]
  rfl

theorem nodes_addEdge (g : WorkGraph) (u v : String) (e : EdgeAttrs) :
    (addEdge g u v e).nodes = (ensureNode (ensureNode g u) v).nodes := by
  simp only [addEdge]
  split <;> rfl

theorem hasNode_addEdge_left (g : WorkGraph) (u v : String) (e : EdgeAttrs) :
    hasNode (addEdge g u v e) u = true := by
  simp only [hasNode, nodes_addEdge]
  have := hasNode_ensureNode_mono (ensureNode g u) v u (hasNode_ensureNode_self g u)
  simpa [hasNode] using this

theorem hasNode_addEdge_right (g : WorkGraph) (u v : String) (e : EdgeAttrs) :
    hasNode (addEdge g u v e) v = true := by
  simp only [hasNode, nodes_addEdge]
  have := hasNode_ensureNode_self (ensureNode g u) v
  simpa [hasNode] using this

theorem hasEdge_addEdge_self (g : WorkGraph) (u v : String) (e : EdgeAttrs) :
    hasEdge (addEdge g u v e) u v = true := by
  simp only [addEdge, hasEdge, edges_ensureNode]
  split
  · next h =>
    obtain ⟨x, hx, hpx⟩ := List.any_eq_true.mp h
    refine List.any_eq_true.mpr ⟨_, List.mem_map_of_mem _ hx, ?_⟩
    simp [hpx]
  · simp [List.any_append]

theorem addEdge_edge_unique (g : WorkGraph) (u v : String) (e : EdgeAttrs) :
    ∀ x ∈ (addEdge g u v e).edges, (x.1 == (u, v)) = true → x = ((u, v), e) := by
  simp only [addEdge, edges_ensureNode]
  split
  · next h =>
    simp only [edges_ensureNode] at h ⊢
    intro x hx hkey
    obtain ⟨y, hy, rfl⟩ := List.mem_map.mp hx
    by_cases hyk : (y.1 == (u, v)) = true
    · simp [hyk]
    · simp only [hyk] at hkey ⊢
      rw [if_neg (by simp [hyk])] at hkey ⊢
      exact absurd hkey hyk
  · next h =>
    simp only [hasEdge, edges_ensureNode, Bool.not_eq_true] at h
    simp only [edges_ensureNode] at *
    intro x hx hkey
    rcases List.mem_append.mp hx with hmem | hmem
    · have hall := List.any_eq_false.mp h
      exact absurd hkey (by simpa using hall x hmem)
    · simpa using List.mem_singleton.mp hmem

theorem addEdge_eq_of_present (g : WorkGraph) (u v : String) (e : EdgeAttrs)
    (hu : hasNode g u = true) (hv : hasNode g v = true)
    (he : hasEdge g u v = true)
    (huniq : ∀ x ∈ g.edges, (x.1 == (u, v)) = true → x = ((u, v), e)) :
    addEdge g u v e = g := by
  simp only [addEdge, ensureNode_of_hasNode g u hu, ensureNode_of_hasNode g v hv]
  rw [if_pos he]
  have hmap : g.edges.map (fun x => if x.1 == (u, v) then ((u, v), e) else x) = g.edges := by
    conv_rhs => rw [show g.edges = g.edges.map id from (List.map_id _).symm]
    apply List.map_congr_left
    intro x hx
    by_cases hk : (x.1 == (u, v)) = true
    · rw [if_pos hk]
      exact (huniq x hx hk).symm
    · rw [if_neg (by simp [hk])]
      rfl
  rw [hmap]

theorem addEdge_idem (g : WorkGraph) (u v : String) (e : EdgeAttrs) :
    addEdge (addEdge g u v e) u v e = addEdge g u v e :=
  addEdge_eq_of_present _ u v e (hasNode_addEdge_left g u v e)
    (hasNode_addEdge_right g u v e) (hasEdge_addEdge_self g u v e)
    (addEdge_edge_unique g u v e)

theorem addEdge_keys_nodup (g : WorkGraph) (u v : String) (e : EdgeAttrs)
    (h : (g.edges.map Prod.fst).Nodup) :
    ((addEdge g u v e).edges.map Prod.fst).Nodup := by
  simp only [addEdge, edges_ensureNode]
  split
  · next hedge =>
    have hkeys : (g.edges.map (fun x => if x.1 == (u, v) then ((u, v), e) else x)).map
        Prod.fst = g.edges.map Prod.fst := by
      rw [List.map_map]
      apply List.map_congr_left
      intro x hx
      by_cases hk : (x.1 == (u, v)) = true
      · simp only [Function.comp_apply, if_pos hk]
        exact (by simpa using hk : x.1 = (u, v)).symm
      · simp only [Function.comp_apply]
        rw [if_neg hk]
    rw [hkeys]
    exact h
  · next hedge =>
    simp only [List.map_append]
    rw [List.nodup_append]
    refine ⟨h, List.nodup_singleton _, ?_⟩
    intro k hk1 hk2
    simp only [List.map_cons, List.map_nil, List.mem_singleton] at hk2
    subst hk2
    obtain ⟨x, hxmem, hxk⟩ := List.mem_map.mp hk1
    simp only [hasEdge, edges_ensureNode, Bool.not_eq_true] at hedge
    have hall := List.any_eq_false.mp hedge
    have hxkey : (x.1 == (u, v)) = true := by simp [hxk]
    have hfalse : (x.1 == (u, v)) = false := by simpa using hall x hxmem
    simp [hxkey] at hfalse

/-- Claim C7, amended.  The working graph keeps at most one edge per ordered
`(from, to)` pair: edge-key uniqueness is preserved by every insertion, and
re-inserting an edge identical to the stored one is a no-op; a transaction
with the same endpoints but a different hash would overwrite instead (see the
counterexample). -/
theorem claim7_edge_key_semantics (g : WorkGraph) (u v : String) (e : EdgeAttrs) :
    ((g.edges.map Prod.fst).Nodup → ((addEdge g u v e).edges.map Prod.fst).Nodup) ∧
    addEdge (addEdge g u v e) u v e = addEdge g u v e :=
  ⟨addEdge_keys_nodup g u v e, addEdge_idem g u v e⟩

/-- Witness for C7: inserting the same edge twice into the empty graph. -/
theorem claim7_witness :
    ((WorkGraph.mk [] []).edges.map Prod.fst).Nodup ∧
    ((addEdge (WorkGraph.mk [] []) "0xa" "0xb"
        { transaction_hash := "0xt1" }).edges.map Prod.fst).Nodup ∧
    addEdge (addEdge (WorkGraph.mk [] []) "0xa" "0xb" { transaction_hash := "0xt1" })
        "0xa" "0xb" { transaction_hash := "0xt1" }
      = addEdge (WorkGraph.mk [] []) "0xa" "0xb" { transaction_hash := "0xt1" } :=
  ⟨by with_unfolding_all decide,
   (claim7_edge_key_semantics (WorkGraph.mk [] []) "0xa" "0xb"
     { transaction_hash := "0xt1" }).1 (by with_unfolding_all decide),
   (claim7_edge_key_semantics (WorkGraph.mk [] []) "0xa" "0xb"
     { transaction_hash := "0xt1" }).2⟩

theorem analyze_flows_idem (g : WorkGraph) :
    _analyze_flows (_analyze_flows g) = _analyze_flows g := by
  have hpos : ¬ (_get_total_stolen_amount ≤ 0) := by norm_num [_get_total_stolen_amount]
  simp only [_analyze_flows, if_neg hpos]
  rw [List.map_map, show annotateEdge _get_total_stolen_amount ∘
    annotateEdge _get_total_stolen_amount = annotateEdge _get_total_stolen_amount from
    funext fun x => rfl]

theorem foldl_consolidate_id (ps : List (String × List String)) :
    (∀ p ∈ ps, p.2.length ≤ 1) →
    ∀ g0 : WorkGraph,
      (ps.foldl (fun g' p => if p.2.length > 1 then _consolidate_address_group g' p.2
        else g') g0) = g0 := by
  induction ps with
  | nil => intro _ g0; rfl
  | cons p ps ih =>
    intro h g0
    rw [List.foldl_cons, if_neg (by have := h p (List.mem_cons_self p ps); omega)]
    exact ih (fun q hq => h q (List.mem_cons_of_mem p hq)) g0

theorem consolidate_entities_id_of_small (g : WorkGraph)
    (h : ∀ p ∈ entityGroups g, p.2.length ≤ 1) :
    _consolidate_entities g = g := by
  simp only [_consolidate_entities]
  exact foldl_consolidate_id _ h g

/-- Claim C6, amended.  The post-processor is idempotent exactly on the
graphs whose once-processed result contains no further prunable dead end and
no consolidatable entity group; flow annotation is always idempotent.  (In
general a second run can prune more — see the counterexample.) -/
theorem claim6_conditional_idempotence (g : WorkGraph)
    (h1 : _remove_dead_ends (_optimize_graph g) = _optimize_graph g)
    (h2 : ∀ p ∈ entityGroups (_optimize_graph g), p.2.length ≤ 1) :
    _optimize_graph (_optimize_graph g) = _optimize_graph g := by
  show _analyze_flows (_consolidate_entities (_remove_dead_ends (_optimize_graph g)))
    = _optimize_graph g
  rw [h1, consolidate_entities_id_of_small _ h2]
  show _analyze_flows (_analyze_flows (_consolidate_entities (_remove_dead_ends g)))
    = _optimize_graph g
  rw [analyze_flows_idem]
  rfl

/-- Witness for C6: a victim edge into a terminated CEX leaf satisfies both
side conditions, and there the post-processor is idempotent. -/
theorem claim6_witness :
    _remove_dead_ends (_optimize_graph cexGraph) = _optimize_graph cexGraph ∧
    (∀ p ∈ entityGroups (_optimize_graph cexGraph), p.2.length ≤ 1) ∧
    _optimize_graph (_optimize_graph cexGraph) = _optimize_graph cexGraph :=
  ⟨by with_unfolding_all decide, by with_unfolding_all decide,
   claim6_conditional_idempotence cexGraph (by with_unfolding_all decide)
     (by with_unfolding_all decide)⟩
